import Mathlib

/-!
Shallow embedding of the GA Vertex QA system's evolutionary-optimization
engine, translated from the TypeScript source.

Scores and rates are modelled as rationals (`ℚ`); JavaScript numbers in
the relevant code paths are produced by `JSON.parse` of judge output and
by the arithmetic below, so no `NaN`/`Infinity` value reaches these
functions.  Opaque string payloads (prompts, reasoning, content) that do
not influence the verified logic are omitted from the record types.
-/

namespace GAVertexQA

/- ------------------------------------------------------------------
Fitness ledger (`src/unnamed/part_018`, `InterpretationService`)
------------------------------------------------------------------- -/

/-- Rating attached to a feedback event (`'GOOD' | 'BAD'`). -/
inductive Rating where
  | GOOD
  | BAD
deriving DecidableEq, Repr

/-- `SCORE_INCREASE_ON_GOOD = 0.05` from `interpretation-service`. -/
def SCORE_INCREASE_ON_GOOD : ℚ := 5 / 100

/-- `SCORE_DECREASE_ON_BAD = 0.1` from `interpretation-service`. -/
def SCORE_DECREASE_ON_BAD : ℚ := 1 / 10

/-- `MIN_SCORE = 0.0` from `interpretation-service`. -/
def MIN_SCORE : ℚ := 0

/-- `MAX_SCORE = 1.0` from `interpretation-service`. -/
def MAX_SCORE : ℚ := 1

/-- One rule-score update step of `InterpretationService.updateRuleScores`:
`GOOD` sets `Math.min(score + SCORE_INCREASE_ON_GOOD, MAX_SCORE)`,
`BAD` sets `Math.max(score - SCORE_DECREASE_ON_BAD, MIN_SCORE)`. -/
def applyRating (score : ℚ) (r : Rating) : ℚ :=
  match r with
  | .GOOD => min (score + SCORE_INCREASE_ON_GOOD) MAX_SCORE
  | .BAD => max (score - SCORE_DECREASE_ON_BAD) MIN_SCORE

/-- Folding a sequence of feedback events over a rule's score, one
`updateRuleScores` invocation per event. -/
def applyRatings (score : ℚ) (events : List Rating) : ℚ :=
  events.foldl applyRating score

/-- The inner loop of `updateRuleScores`: the clamped delta is applied to
the score of every rule listed in the application's `applied_rule_ids`,
without consulting any previously recorded `feedback_rating`. -/
def updateRuleScoresOnce (rating : Rating) (ruleScores : List ℚ) : List ℚ :=
  ruleScores.map (fun s => applyRating s rating)

/-- Number of GOOD events in a sequence. -/
def countGood (events : List Rating) : Nat :=
  events.countP (· = Rating.GOOD)

/-- Number of BAD events in a sequence. -/
def countBad (events : List Rating) : Nat :=
  events.countP (· = Rating.BAD)

/-- `noFloorClamp s events` holds when along the run of `updateRuleScores`
steps starting from score `s`, every `BAD` event finds a score of at least
`SCORE_DECREASE_ON_BAD`, so the `Math.max(…, MIN_SCORE)` clamp never
truncates a downward step. -/
def noFloorClamp (s : ℚ) : List Rating → Bool
  | [] => true
  | Rating.GOOD :: rs => noFloorClamp (applyRating s Rating.GOOD) rs
  | Rating.BAD :: rs =>
      decide (SCORE_DECREASE_ON_BAD ≤ s) && noFloorClamp (applyRating s Rating.BAD) rs

/- ------------------------------------------------------------------
Pairwise judging (`src/src/lib/evolution/evaluation-engine.ts`,
`src/src/lib/google/vertex-search.ts`, `src/src/lib/evolution/index.ts`)
------------------------------------------------------------------- -/

/-- Verdict of one pairwise comparison (`'A' | 'B' | 'TIE'`): `A` is the
baseline (original / without-rule) side, `B` the candidate side. -/
inductive PairwiseWinner where
  | A
  | B
  | TIE
deriving DecidableEq, Repr

/-- Per-side metric scores of the evolution judge
(`helpfulness`, `correctness`, `coherence`). -/
structure MetricScores where
  helpfulness : ℚ
  correctness : ℚ
  coherence : ℚ
deriving DecidableEq, Repr

/-- Outcome of `runPairwiseComparison`: a winner plus both sides' scores. -/
structure PairwiseComparison where
  winner : PairwiseWinner
  originalScores : MetricScores
  candidateScores : MetricScores
deriving DecidableEq, Repr

/-- Count of comparisons the candidate won (`comparison.winner === 'B'`
branch of `evaluateSingleCandidate`). -/
def docWins (comps : List PairwiseComparison) : Nat :=
  comps.countP (fun c => decide (c.winner = PairwiseWinner.B))

/-- Count of comparisons the candidate lost (`winner === 'A'` branch). -/
def docLosses (comps : List PairwiseComparison) : Nat :=
  comps.countP (fun c => decide (c.winner = PairwiseWinner.A))

/-- Count of tied comparisons (the residual `else` branch: neither `B`
nor `A`). -/
def docTies (comps : List PairwiseComparison) : Nat :=
  comps.countP (fun c => decide (c.winner ≠ PairwiseWinner.B ∧ c.winner ≠ PairwiseWinner.A))

/-- Count of comparisons whose verdict is exactly `TIE`. -/
def countTie (comps : List PairwiseComparison) : Nat :=
  comps.countP (fun c => decide (c.winner = PairwiseWinner.TIE))

/-- `EvaluationResult` from `src/src/lib/evolution/types` (the
`comparisonDetails` payload is omitted). -/
structure EvaluationResult where
  candidateId : String
  score : ℚ
  winRate : ℚ
  metrics : MetricScores
deriving DecidableEq, Repr

/-- `EvaluationEngine.average`: `0` for an empty array, else sum/length. -/
def average (l : List ℚ) : ℚ :=
  if l.length = 0 then 0 else l.sum / l.length

/-- `Math.round(x * 100) / 100`, the two-decimal rounding applied to
`score` and `winRate` in `evaluateSingleCandidate`.  JavaScript
`Math.round` rounds half towards positive infinity, as Mathlib's
`round` does. -/
def round2 (x : ℚ) : ℚ :=
  (round (x * 100) : ℤ) / 100

/-- The aggregation loop of `EvaluationEngine.evaluateSingleCandidate`:
count wins (`winner === 'B'`), losses (`winner === 'A'`) and ties (the
remaining branch), average the candidate-side metrics over all
comparisons, and set
`winRate = totalComparisons > 0 ? totalWins / totalComparisons : 0`,
both `score` and `winRate` rounded to two decimals. -/
def evaluateSingleCandidate (candidateId : String)
    (comps : List PairwiseComparison) : EvaluationResult :=
  let wins := docWins comps
  let losses := docLosses comps
  let ties := docTies comps
  let totalComparisons := wins + losses + ties
  let winRate : ℚ := if 0 < totalComparisons then (wins : ℚ) / totalComparisons else 0
  let avgMetrics : MetricScores :=
    { helpfulness := average (comps.map (fun c => c.candidateScores.helpfulness))
      correctness := average (comps.map (fun c => c.candidateScores.correctness))
      coherence := average (comps.map (fun c => c.candidateScores.coherence)) }
  let score := (avgMetrics.helpfulness + avgMetrics.correctness + avgMetrics.coherence) / 3
  { candidateId := candidateId
    score := round2 score
    winRate := round2 winRate
    metrics := avgMetrics }

/-- Raw per-side scores as found in the judge's JSON
(`parsed.scores?.X?.metric`); `none` models an absent field. -/
structure RawSideScores where
  helpfulness : Option ℚ
  correctness : Option ℚ
  coherence : Option ℚ
deriving DecidableEq, Repr

/-- A successfully `JSON.parse`d judge verdict in
`EvaluationEngine.parseEvaluationResult`; optional fields model absent
JSON members. -/
structure RawVerdict where
  winner : Option String
  scoresA : Option RawSideScores
  scoresB : Option RawSideScores
deriving DecidableEq, Repr

/-- JavaScript `x || 3` applied to a parsed score: absent and `0` (the
falsy number) both fall back to `3`. -/
def jsOr3 : Option ℚ → ℚ
  | none => 3
  | some x => if x = 0 then 3 else x

/-- Winner normalization in `parseEvaluationResult`:
`parsed.winner === 'A' ? 'A' : parsed.winner === 'B' ? 'B' : 'TIE'`. -/
def parseWinner (w : Option String) : PairwiseWinner :=
  match w with
  | some s => if s = "A" then .A else if s = "B" then .B else .TIE
  | none => .TIE

/-- Score normalization in `parseEvaluationResult` for one side. -/
def parseSideScores (s : Option RawSideScores) : MetricScores :=
  match s with
  | none => ⟨3, 3, 3⟩
  | some r => ⟨jsOr3 r.helpfulness, jsOr3 r.correctness, jsOr3 r.coherence⟩

/-- `EvaluationEngine.runPairwiseComparison` after the two response
generations: parse the verdict; when no JSON object is found or
`JSON.parse` throws (`raw = none`), the `catch` branch returns `TIE`
with neutral `(3,3,3)` scores for both sides. -/
def runPairwiseComparison (raw : Option RawVerdict) : PairwiseComparison :=
  match raw with
  | none => ⟨.TIE, ⟨3, 3, 3⟩, ⟨3, 3, 3⟩⟩
  | some v => ⟨parseWinner v.winner, parseSideScores v.scoresA, parseSideScores v.scoresB⟩

/-- A candidate evaluation driven by raw judge outputs, one per sample
question, as in the loop of `evaluateSingleCandidate` that calls
`runPairwiseComparison` per question. -/
def evaluateCandidateFromRaw (candidateId : String)
    (raws : List (Option RawVerdict)) : EvaluationResult :=
  evaluateSingleCandidate candidateId (raws.map runPairwiseComparison)

/-- Per-side scores of `GeminiClient.evaluateDocuments`
(`correctness`, `helpfulness`, `clarity`). -/
structure GScores where
  correctness : ℚ
  helpfulness : ℚ
  clarity : ℚ
deriving DecidableEq, Repr

/-- `EvaluationResult` of `src/src/lib/evolution/index.ts` (the
`GeminiClient.evaluateDocuments` verdict shape). -/
structure GEvaluationResult where
  winner : String
  scoresA : GScores
  scoresB : GScores
  reasoning : String
deriving DecidableEq, Repr

/-- `GeminiClient.evaluateDocuments` after the completion call: on a
parse or validation failure (`raw = none`, covering "no JSON found",
`JSON.parse` throwing, and a missing `winner`/`scores`/`reasoning`
field), the `catch` branch returns a default evaluation favouring the
original document `A`. -/
def evaluateDocuments (raw : Option GEvaluationResult) : GEvaluationResult :=
  match raw with
  | none =>
      { winner := "A"
        scoresA := ⟨3, 3, 3⟩
        scoresB := ⟨2, 2, 2⟩
        reasoning := "Evaluation parsing failed, defaulting to original document" }
  | some v => v

/-- `InterpretationEvaluationResult` from
`src/src/lib/interpretation/types.ts` (rationale strings omitted). -/
structure InterpretationEvaluationResult where
  winRate : ℚ
  avgScore : ℚ
  sampleComparisons : Nat
  metrics : MetricScores
deriving DecidableEq, Repr

/-- Win contribution of one parsed comparison in
`InterpretationEvaluationEngine.evaluateCandidate`: `winner === 'B'`
adds `1`, `'TIE'` adds `0.5`, `'A'` adds nothing. -/
def interpWinContribution (w : PairwiseWinner) : ℚ :=
  match w with
  | .B => 1
  | .TIE => 1 / 2
  | .A => 0

/-- The aggregation loop of
`InterpretationEvaluationEngine.evaluateCandidate`: comparisons whose
parse failed (`none`, from `runPairwiseComparison` returning `null`)
are skipped entirely; over the parsed ones, wins accumulate via
`interpWinContribution` and the candidate-side (`B`) metrics are
averaged; `win_rate = totalComparisons > 0 ? totalWins / totalComparisons
: 0`. -/
def interpEvaluateCandidate (comps : List (Option PairwiseComparison)) :
    InterpretationEvaluationResult :=
  let parsed := comps.filterMap id
  let totalComparisons := parsed.length
  let totalWins : ℚ := (parsed.map (fun c => interpWinContribution c.winner)).sum
  let avgB : MetricScores :=
    if 0 < totalComparisons then
      { helpfulness := (parsed.map (fun c => c.candidateScores.helpfulness)).sum / totalComparisons
        correctness := (parsed.map (fun c => c.candidateScores.correctness)).sum / totalComparisons
        coherence := (parsed.map (fun c => c.candidateScores.coherence)).sum / totalComparisons }
    else ⟨0, 0, 0⟩
  let avgScore := (avgB.correctness + avgB.helpfulness + avgB.coherence) / 3
  let winRate : ℚ := if 0 < totalComparisons then totalWins / totalComparisons else 0
  { winRate := winRate
    avgScore := avgScore
    sampleComparisons := totalComparisons
    metrics := avgB }

/-- The spec's win-rate formula, `wins / (wins + losses + ties)`, written
from §4.3 of the specification for the refinement comparison with the
code's computations (`0` when there are no comparisons). -/
def specWinRate (wins losses ties : Nat) : ℚ :=
  if 0 < wins + losses + ties then (wins : ℚ) / (wins + losses + ties) else 0

/- ------------------------------------------------------------------
Winner selection and the job state machine
(`src/src/lib/evolution/evolution-workflow.ts`)
------------------------------------------------------------------- -/

/-- `EvolutionConfig` from `src/src/lib/evolution` (feedback-driven path). -/
structure EvolutionConfig where
  badFeedbackThreshold : Nat
  candidateCount : Nat
  evaluationSampleSize : Nat
  minWinMargin : ℚ
  autoUpdate : Bool
deriving DecidableEq, Repr

/-- `DEFAULT_EVOLUTION_CONFIG`. -/
def DEFAULT_EVOLUTION_CONFIG : EvolutionConfig :=
  { badFeedbackThreshold := 3
    candidateCount := 3
    evaluationSampleSize := 5
    minWinMargin := 1 / 10
    autoUpdate := false }

/-- The comparator of `selectWinner`'s sort,
`(a, b) => b.winRate - a.winRate`: `a` precedes `b` when
`b.winRate ≤ a.winRate` (descending win rate). -/
def winRateGe (a b : EvaluationResult) : Prop :=
  b.winRate ≤ a.winRate

instance : DecidableRel winRateGe :=
  fun a b => inferInstanceAs (Decidable (b.winRate ≤ a.winRate))

instance : IsTotal EvaluationResult winRateGe :=
  ⟨fun a b => le_total b.winRate a.winRate⟩

instance : IsTrans EvaluationResult winRateGe :=
  ⟨fun _ _ _ h₁ h₂ => le_trans h₂ h₁⟩

/-- `EvolutionWorkflow.selectWinner`: stable-sort the results by
`winRate` descending (JavaScript `Array.prototype.sort` is stable, which
insertion sort models exactly), take the top candidate, and return it
only when `topCandidate.winRate >= 0.5 + minWinMargin`; otherwise
`null`. -/
def selectWinner (cfg : EvolutionConfig) (results : List EvaluationResult) :
    Option EvaluationResult :=
  match (results.insertionSort winRateGe).head? with
  | none => none
  | some top =>
      if (1 : ℚ) / 2 + cfg.minWinMargin ≤ top.winRate then some top else none

/-- The earliest element of the list attaining the maximal `winRate`;
this is what a stable descending sort places first. -/
def firstMaxByWinRate : List EvaluationResult → Option EvaluationResult
  | [] => none
  | x :: xs =>
      match firstMaxByWinRate xs with
      | none => some x
      | some m => if m.winRate ≤ x.winRate then some x else some m

/-- Job lifecycle states of `EvolutionJob.status`. -/
inductive JobStatus where
  | pending
  | generating
  | evaluating
  | updating
  | completed
  | failed
deriving DecidableEq, Repr

/-- The persisted state that `processDocument` can mutate: the
document's `generation` counter (`qaev_documents`), the `processed` flag
of the triggering feedback rows (`qaev_feedback_logs`), and the number
of evolution history records (`qaev_evolution_history`). -/
structure PersistedState where
  generation : ℤ
  feedbacksProcessed : Bool
  historyRecords : Nat
deriving DecidableEq, Repr

/-- The external calls of `processDocument`, in program order; each can
throw. -/
inductive WorkflowStep where
  | generateMutations
  | prepareSampleQuestions
  | evaluateCandidates
  | updateDocument
  | markFeedbacksProcessed
  | recordEvolutionHistory
deriving DecidableEq, Repr

/-- The observable outcome of one `processDocument` run: final job
status, recorded winner (set only on the completed job object; a thrown
error is caught in `runEvolution`, which records a fresh `failed` job
without a winner), the resulting persisted state, and the ordered trace
of successfully executed external steps. -/
structure JobOutcome where
  status : JobStatus
  winnerCandidateId : Option String
  state : PersistedState
  trace : List WorkflowStep
deriving DecidableEq, Repr

/-- Fault-free environment: no external call throws. -/
def noFaults : WorkflowStep → Bool := fun _ => false

/-- `EvolutionWorkflow.processDocument`, modelled as the sequence of its
external calls with an injected fault environment: `faults step = true`
means the call at `step` throws (performing no write), in which case the
job ends `failed` with all earlier writes retained.  On the success
path the order is: generate mutations → prepare sample questions →
evaluate candidates → select winner → (when a winner was selected and
`autoUpdate` is on) increment the document's `generation` → mark the
triggering feedback processed → insert the evolution history record →
status `completed`.  The evaluation results are a parameter, as they
are produced by the (external) judge. -/
def processDocument (cfg : EvolutionConfig) (results : List EvaluationResult)
    (faults : WorkflowStep → Bool) (st : PersistedState) : JobOutcome :=
  if faults .generateMutations then
    ⟨.failed, none, st, []⟩
  else if faults .prepareSampleQuestions then
    ⟨.failed, none, st, [.generateMutations]⟩
  else if faults .evaluateCandidates then
    ⟨.failed, none, st, [.generateMutations, .prepareSampleQuestions]⟩
  else
    let winner := selectWinner cfg results
    let doUpdate := winner.isSome && cfg.autoUpdate
    let trace₀ : List WorkflowStep :=
      [.generateMutations, .prepareSampleQuestions, .evaluateCandidates]
    if doUpdate && faults .updateDocument then
      ⟨.failed, none, st, trace₀⟩
    else
      let st₁ := if doUpdate then { st with generation := st.generation + 1 } else st
      let trace₁ := trace₀ ++ if doUpdate then [.updateDocument] else []
      if faults .markFeedbacksProcessed then
        ⟨.failed, none, st₁, trace₁⟩
      else
        let st₂ := { st₁ with feedbacksProcessed := true }
        let trace₂ := trace₁ ++ [.markFeedbacksProcessed]
        if faults .recordEvolutionHistory then
          ⟨.failed, none, st₂, trace₂⟩
        else
          ⟨.completed, winner.map (fun w => w.candidateId),
            { st₂ with historyRecords := st₂.historyRecords + 1 },
            trace₂ ++ [.recordEvolutionHistory]⟩

/- ------------------------------------------------------------------
Self-evolution (`src/src/lib/interpretation/self-evaluation-engine.ts`,
`src/unnamed/part_020`, `src/src/lib/interpretation/types.ts`)
------------------------------------------------------------------- -/

/-- Per-response metric scores of the self-evaluation judge
(`accuracy`, `completeness`, `clarity`, `relevance`, each 1–5). -/
structure SEScores where
  accuracy : ℚ
  completeness : ℚ
  clarity : ℚ
  relevance : ℚ
deriving DecidableEq, Repr

/-- `SelfEvaluationResult` reduced to the fields the verified logic
reads: the without-rule and with-rule score blocks
(`evaluation.scores.without_rule` / `.with_rule`). -/
structure SelfEvaluationResult where
  withoutRule : SEScores
  withRule : SEScores
deriving DecidableEq, Repr

/-- `SelfEvolutionConfig` reduced to its numeric/boolean knobs (the
question-category and difficulty-distribution tables do not enter the
verified logic). -/
structure SelfEvolutionConfig where
  questionsPerCategory : Nat
  weaknessThreshold : ℚ
  minImprovementRate : ℚ
  evaluationIterations : Nat
  autoEnable : Bool
deriving DecidableEq, Repr

/-- `DEFAULT_SELF_EVOLUTION_CONFIG`. -/
def DEFAULT_SELF_EVOLUTION_CONFIG : SelfEvolutionConfig :=
  { questionsPerCategory := 3
    weaknessThreshold := 1 / 2
    minImprovementRate := 1 / 5
    evaluationIterations := 2
    autoEnable := true }

/-- The four-metric average `(accuracy + completeness + clarity +
relevance) / 4` used by both `SelfEvaluationEngine.calculateAverageScore`
and `SelfEvolutionWorkflow.calculateAverageScore`. -/
def avgOfSEScores (s : SEScores) : ℚ :=
  (s.accuracy + s.completeness + s.clarity + s.relevance) / 4

/-- `SelfEvolutionWorkflow.calculateAverageScore`: mean over the results
of each result's with-rule four-metric average (`0` for no results). -/
def calculateAverageScore (results : List SelfEvaluationResult) : ℚ :=
  if results.length = 0 then 0
  else (results.map (fun r => avgOfSEScores r.withRule)).sum / results.length

/-- `SelfEvolutionWorkflow.calculateImprovementRate`:
`(avgAfter - avgBefore) / Math.max(avgBefore, 1)`, with `0` when either
result list is empty. -/
def calculateImprovementRate (resultsBefore resultsAfter : List SelfEvaluationResult) : ℚ :=
  if resultsBefore.length = 0 ∨ resultsAfter.length = 0 then 0
  else
    (calculateAverageScore resultsAfter - calculateAverageScore resultsBefore) /
      max (calculateAverageScore resultsBefore) 1

/-- The adoption gate of `SelfEvolutionWorkflow.evaluateAndAdoptRules`:
a candidate rule is adopted exactly when
`improvementRate >= config.minImprovementRate`. -/
def adoptCandidate (cfg : SelfEvolutionConfig)
    (resultsWithout resultsWith : List SelfEvaluationResult) : Bool :=
  decide (cfg.minImprovementRate ≤ calculateImprovementRate resultsWithout resultsWith)

/-- The weakness classification of
`SelfEvaluationEngine.identifyWeaknesses` for one evaluation result: a
weakness is recorded when `withoutRuleAvg < 3.5`, or when
`withRuleAvg < 3.5 && withRuleAvg - withoutRuleAvg < weaknessThreshold`. -/
def weaknessFlag (cfg : SelfEvolutionConfig) (r : SelfEvaluationResult) : Bool :=
  decide (avgOfSEScores r.withoutRule < 7 / 2) ||
    (decide (avgOfSEScores r.withRule < 7 / 2) &&
      decide (avgOfSEScores r.withRule - avgOfSEScores r.withoutRule < cfg.weaknessThreshold))

/-- A JavaScript value as seen by `normalizeScore`'s
`typeof score === 'number'` test: a (finite) number or anything else
(string, object, `undefined`, `null`, boolean). -/
inductive JSValue where
  | num (x : ℚ)
  | other
deriving DecidableEq, Repr

/-- The raw `scores.X` object fields handed to `normalizeScores` after
`JSON.parse`. -/
structure RawSEScores where
  accuracy : JSValue
  completeness : JSValue
  clarity : JSValue
  relevance : JSValue
deriving DecidableEq, Repr

/-- `SelfEvaluationEngine.normalizeScore`: clamp a numeric score into
`[1, 5]` via `Math.max(1, Math.min(5, score))`; any non-number becomes
`3`. -/
def normalizeScore : JSValue → ℚ
  | .num x => max 1 (min 5 x)
  | .other => 3

/-- `SelfEvaluationEngine.normalizeScores`: a missing or non-object
score block becomes all-`3` defaults, else each field is normalized. -/
def normalizeScores : Option RawSEScores → SEScores
  | none => ⟨3, 3, 3, 3⟩
  | some s =>
      ⟨normalizeScore s.accuracy, normalizeScore s.completeness,
        normalizeScore s.clarity, normalizeScore s.relevance⟩

/-- Field-wise averaging of several score blocks, as in
`SelfEvaluationEngine.aggregateResults` (iteration aggregation). -/
def aggregateScores (l : List SEScores) : SEScores :=
  { accuracy := (l.map (fun s => s.accuracy)).sum / l.length
    completeness := (l.map (fun s => s.completeness)).sum / l.length
    clarity := (l.map (fun s => s.clarity)).sum / l.length
    relevance := (l.map (fun s => s.relevance)).sum / l.length }

/-- All four metric scores of a block lie in `[1, 5]`. -/
def SEScoresIn15 (s : SEScores) : Prop :=
  (1 ≤ s.accuracy ∧ s.accuracy ≤ 5) ∧ (1 ≤ s.completeness ∧ s.completeness ≤ 5) ∧
    (1 ≤ s.clarity ∧ s.clarity ≤ 5) ∧ (1 ≤ s.relevance ∧ s.relevance ≤ 5)

instance (s : SEScores) : Decidable (SEScoresIn15 s) := by
  unfold SEScoresIn15
  infer_instance

/-- Fault environment in which only the history-record insertion throws. -/
def failHistoryOnly : WorkflowStep → Bool
  | .recordEvolutionHistory => true
  | _ => false

/- ------------------------------------------------------------------
Helper lemmas
------------------------------------------------------------------- -/

theorem applyRating_GOOD_le (s : ℚ) :
    applyRating s Rating.GOOD ≤ s + SCORE_INCREASE_ON_GOOD := by
  simp [applyRating]

theorem applyRating_BAD_eq (s : ℚ) (h : SCORE_DECREASE_ON_BAD ≤ s) :
    applyRating s Rating.BAD = s - SCORE_DECREASE_ON_BAD := by
  have h0 : MIN_SCORE ≤ s - SCORE_DECREASE_ON_BAD := by
    simp only [MIN_SCORE]
    linarith
  simpa [applyRating] using max_eq_left h0

/-- Along a run in which the floor clamp never truncates a `BAD` step,
the final score is bounded by the initial score shifted by the full
per-event deltas. -/
theorem applyRatings_le_of_noFloorClamp (events : List Rating) :
    ∀ s : ℚ, noFloorClamp s events = true →
      applyRatings s events ≤
        s + SCORE_INCREASE_ON_GOOD * countGood events
          - SCORE_DECREASE_ON_BAD * countBad events := by
  induction events with
  | nil =>
    intro s _
    simp [applyRatings, countGood, countBad]
  | cons r rs ih =>
    intro s h
    cases r with
    | GOOD =>
      have h' : noFloorClamp (applyRating s Rating.GOOD) rs = true := by
        simpa [noFloorClamp] using h
      have hstep := applyRating_GOOD_le s
      have hrec := ih (applyRating s Rating.GOOD) h'
      have hg : countGood (Rating.GOOD :: rs) = countGood rs + 1 := by
        simp [countGood, List.countP_cons]
      have hb : countBad (Rating.GOOD :: rs) = countBad rs := by
        simp [countBad, List.countP_cons]
      have hfold : applyRatings s (Rating.GOOD :: rs) =
          applyRatings (applyRating s Rating.GOOD) rs := rfl
      rw [hfold, hg, hb]
      push_cast
      push_cast at hrec
      linarith
    | BAD =>
      have hsplit : (decide (SCORE_DECREASE_ON_BAD ≤ s) &&
          noFloorClamp (applyRating s Rating.BAD) rs) = true := by
        simpa [noFloorClamp] using h
      rw [Bool.and_eq_true, decide_eq_true_eq] at hsplit
      obtain ⟨hle, h'⟩ := hsplit
      have hstep := applyRating_BAD_eq s hle
      have hrec := ih (applyRating s Rating.BAD) h'
      have hg : countGood (Rating.BAD :: rs) = countGood rs := by
        simp [countGood, List.countP_cons]
      have hb : countBad (Rating.BAD :: rs) = countBad rs + 1 := by
        simp [countBad, List.countP_cons]
      have hfold : applyRatings s (Rating.BAD :: rs) =
          applyRatings (applyRating s Rating.BAD) rs := rfl
      rw [hfold, hstep, hg, hb]
      push_cast
      push_cast at hrec
      rw [hstep] at hrec
      linarith

theorem firstMaxByWinRate_eq_none_iff (l : List EvaluationResult) :
    firstMaxByWinRate l = none ↔ l = [] := by
  cases l with
  | nil => simp [firstMaxByWinRate]
  | cons x xs =>
    simp only [firstMaxByWinRate]
    constructor
    · intro h
      exfalso
      cases hm : firstMaxByWinRate xs with
      | none =>
        rw [hm] at h
        simp only [] at h
        exact absurd h (by simp)
      | some m =>
        rw [hm] at h
        simp only [] at h
        by_cases hle : m.winRate ≤ x.winRate
        · rw [if_pos hle] at h
          exact absurd h (by simp)
        · rw [if_neg hle] at h
          exact absurd h (by simp)
    · intro h
      exact absurd h (by simp)

/-- The head of the stable descending sort used by `selectWinner` is the
earliest result attaining the maximal win rate. -/
theorem head_insertionSort_eq_firstMax (l : List EvaluationResult) :
    (l.insertionSort winRateGe).head? = firstMaxByWinRate l := by
  induction l with
  | nil => rfl
  | cons x xs ih =>
    have hstep : (x :: xs).insertionSort winRateGe =
        List.orderedInsert winRateGe x (xs.insertionSort winRateGe) := rfl
    rw [hstep]
    cases hsort : xs.insertionSort winRateGe with
    | nil =>
      have hxs : xs = [] := by
        have hp := List.perm_insertionSort winRateGe xs
        rw [hsort] at hp
        exact hp.symm.eq_nil
      subst hxs
      simp [List.orderedInsert, firstMaxByWinRate]
    | cons y ys =>
      rw [hsort] at ih
      simp only [List.head?] at ih
      have hord : List.orderedInsert winRateGe x (y :: ys) =
          if winRateGe x y then x :: y :: ys else y :: List.orderedInsert winRateGe x ys := rfl
      rw [hord]
      simp only [firstMaxByWinRate, ← ih]
      by_cases hxy : winRateGe x y
      · rw [if_pos hxy]
        rw [winRateGe] at hxy
        rw [if_pos hxy]
        rfl
      · rw [if_neg hxy]
        rw [winRateGe] at hxy
        rw [if_neg hxy]
        rfl

/-- The `selectWinner` computation in terms of the earliest maximal
result. -/
theorem selectWinner_eq_firstMax (cfg : EvolutionConfig) (results : List EvaluationResult) :
    selectWinner cfg results =
      match firstMaxByWinRate results with
      | none => none
      | some m => if (1 : ℚ) / 2 + cfg.minWinMargin ≤ m.winRate then some m else none := by
  rw [selectWinner, head_insertionSort_eq_firstMax]

theorem firstMaxByWinRate_mem :
    ∀ {l : List EvaluationResult} {m : EvaluationResult},
      firstMaxByWinRate l = some m → m ∈ l := by
  intro l
  induction l with
  | nil =>
    intro m h
    exact absurd h (by simp [firstMaxByWinRate])
  | cons x xs ih =>
    intro m h
    simp only [firstMaxByWinRate] at h
    cases hm : firstMaxByWinRate xs with
    | none =>
      rw [hm] at h
      simp only [] at h
      simp only [Option.some.injEq] at h
      simp [← h]
    | some m' =>
      rw [hm] at h
      simp only [] at h
      by_cases hle : m'.winRate ≤ x.winRate
      · rw [if_pos hle] at h
        simp only [Option.some.injEq] at h
        simp [← h]
      · rw [if_neg hle] at h
        simp only [Option.some.injEq] at h
        exact List.mem_cons_of_mem x (ih (h ▸ hm))

theorem firstMaxByWinRate_isMax :
    ∀ {l : List EvaluationResult} {m : EvaluationResult},
      firstMaxByWinRate l = some m → ∀ r ∈ l, r.winRate ≤ m.winRate := by
  intro l
  induction l with
  | nil =>
    intro m h
    exact absurd h (by simp [firstMaxByWinRate])
  | cons x xs ih =>
    intro m h
    simp only [firstMaxByWinRate] at h
    cases hm : firstMaxByWinRate xs with
    | none =>
      have hxs : xs = [] := (firstMaxByWinRate_eq_none_iff xs).mp hm
      rw [hm] at h
      simp only [] at h
      simp only [Option.some.injEq] at h
      subst hxs
      intro r hr
      rw [List.mem_singleton] at hr
      rw [hr, ← h]
    | some m' =>
      rw [hm] at h
      simp only [] at h
      by_cases hle : m'.winRate ≤ x.winRate
      · rw [if_pos hle] at h
        simp only [Option.some.injEq] at h
        subst h
        intro r hr
        rcases List.mem_cons.mp hr with hx | hxs
        · rw [hx]
        · exact le_trans (ih hm r hxs) hle
      · rw [if_neg hle] at h
        simp only [Option.some.injEq] at h
        subst h
        intro r hr
        rcases List.mem_cons.mp hr with hx | hxs
        · rw [hx]
          exact le_of_not_le hle
        · exact ih hm r hxs

theorem firstMaxByWinRate_earliest :
    ∀ {l : List EvaluationResult} {m : EvaluationResult},
      firstMaxByWinRate l = some m →
        ∃ l₁ l₂, l = l₁ ++ m :: l₂ ∧ ∀ r ∈ l₁, r.winRate < m.winRate := by
  intro l
  induction l with
  | nil =>
    intro m h
    exact absurd h (by simp [firstMaxByWinRate])
  | cons x xs ih =>
    intro m h
    simp only [firstMaxByWinRate] at h
    cases hm : firstMaxByWinRate xs with
    | none =>
      rw [hm] at h
      simp only [] at h
      simp only [Option.some.injEq] at h
      exact ⟨[], xs, by rw [← h]; rfl, by simp⟩
    | some m' =>
      rw [hm] at h
      simp only [] at h
      by_cases hle : m'.winRate ≤ x.winRate
      · rw [if_pos hle] at h
        simp only [Option.some.injEq] at h
        exact ⟨[], xs, by rw [← h]; rfl, by simp⟩
      · rw [if_neg hle] at h
        simp only [Option.some.injEq] at h
        subst h
        obtain ⟨l₁, l₂, heq, hlt⟩ := ih hm
        refine ⟨x :: l₁, l₂, by rw [heq]; rfl, ?_⟩
        intro r hr
        rcases List.mem_cons.mp hr with hx | hl₁
        · rw [hx]
          exact lt_of_not_le hle
        · exact hlt r hl₁

/- ------------------------------------------------------------------
Claim theorems: fitness ledger (C3, C4)
------------------------------------------------------------------- -/

/-- C3, counterexample: for the initial score `0 ∈ [0, 1]` and the
interleaving `BAD, GOOD` of one GOOD and one BAD event (`N = M = 1`),
the final ledger score `0.05` is strictly greater than the initial
score, refuting "final score ≤ initial score" as stated. -/
theorem ledger_asymmetry_clamp_cex :
    (0 : ℚ) ≤ 0 ∧ (0 : ℚ) ≤ 1 ∧
    countGood [Rating.BAD, Rating.GOOD] = countBad [Rating.BAD, Rating.GOOD] ∧
    ¬ applyRatings 0 [Rating.BAD, Rating.GOOD] ≤ 0 := by
  refine ⟨le_refl 0, by norm_num, by decide, ?_⟩
  norm_num [applyRatings, applyRating, SCORE_INCREASE_ON_GOOD, SCORE_DECREASE_ON_BAD,
    MIN_SCORE, MAX_SCORE, min_def, max_def]

/-- C3, amended: for every initial score and every interleaving of
equally many GOOD and BAD events in which no BAD update is truncated by
the `0.0` floor clamp, the final score is at most the initial score
(the `MIN_SCORE` clamp can otherwise leave the final score above the
initial one, as the counterexample shows). -/
theorem ledger_asymmetry_no_floor_clamp (s : ℚ) (events : List Rating)
    (hclamp : noFloorClamp s events = true)
    (hbal : countGood events = countBad events) :
    applyRatings s events ≤ s := by
  have h := applyRatings_le_of_noFloorClamp events s hclamp
  rw [hbal] at h
  have hnn : (0 : ℚ) ≤ (countBad events : ℚ) := by positivity
  have hdelta : SCORE_INCREASE_ON_GOOD * (countBad events : ℚ)
      - SCORE_DECREASE_ON_BAD * (countBad events : ℚ) ≤ 0 := by
    rw [SCORE_INCREASE_ON_GOOD, SCORE_DECREASE_ON_BAD]
    nlinarith
  linarith

/-- C3, witness: starting from score `0.5` with events `GOOD, BAD`, no
floor clamp occurs, the GOOD/BAD counts agree, and the final score is at
most the initial `0.5`. -/
theorem ledger_asymmetry_no_floor_clamp_witness :
    noFloorClamp (1 / 2) [Rating.GOOD, Rating.BAD] = true ∧
    countGood [Rating.GOOD, Rating.BAD] = countBad [Rating.GOOD, Rating.BAD] ∧
    applyRatings (1 / 2) [Rating.GOOD, Rating.BAD] ≤ 1 / 2 := by
  have hc : noFloorClamp (1 / 2) [Rating.GOOD, Rating.BAD] = true := by
    norm_num [noFloorClamp, applyRating, SCORE_INCREASE_ON_GOOD, SCORE_DECREASE_ON_BAD,
      MIN_SCORE, MAX_SCORE, min_def, max_def]
  exact ⟨hc, by decide,
    ledger_asymmetry_no_floor_clamp (1 / 2) [Rating.GOOD, Rating.BAD] hc (by decide)⟩

/-- C4, counterexample: re-running the rule-score update for the same
feedback event (a GOOD rating for a single applied rule at score `0.5`)
changes the rule's score again (`0.55` to `0.6`), so the update is not
idempotent per feedback event. -/
theorem rule_update_not_idempotent_cex :
    updateRuleScoresOnce Rating.GOOD (updateRuleScoresOnce Rating.GOOD [1 / 2]) ≠
      updateRuleScoresOnce Rating.GOOD [1 / 2] := by
  norm_num [updateRuleScoresOnce, applyRating, SCORE_INCREASE_ON_GOOD,
    MAX_SCORE, min_def]

/-- C4, amended: `updateRuleScores` records the feedback rating on the
application row but never consults it, so re-applying the update for the
same feedback event applies the clamped delta again; a second
application leaves a rule's score unchanged exactly when the score is
already pinned at the relevant clamp (at least `0.95` for `GOOD`, at
most `0.1` for `BAD`). -/
theorem rule_update_repeat_characterization (s : ℚ) (r : Rating) :
    applyRating (applyRating s r) r = applyRating s r ↔
      (r = Rating.GOOD ∧ 19 / 20 ≤ s) ∨ (r = Rating.BAD ∧ s ≤ 1 / 10) := by
  cases r with
  | GOOD =>
    simp only [applyRating, SCORE_INCREASE_ON_GOOD, MAX_SCORE, reduceCtorEq,
      false_and, or_false, true_and]
    constructor
    · intro h
      by_contra hs
      push_neg at hs
      have h1 : s + 5 / 100 ≤ (1 : ℚ) := by linarith
      rw [min_eq_left h1] at h
      rcases le_total (s + 5 / 100 + 5 / 100) (1 : ℚ) with h2 | h2
      · rw [min_eq_left h2] at h
        linarith
      · rw [min_eq_right h2] at h
        linarith
    · intro hs
      have h1 : (1 : ℚ) ≤ s + 5 / 100 := by linarith
      rw [min_eq_right h1, min_eq_right (by norm_num : (1 : ℚ) ≤ 1 + 5 / 100)]
  | BAD =>
    simp only [applyRating, SCORE_DECREASE_ON_BAD, MIN_SCORE, reduceCtorEq,
      false_and, false_or, true_and]
    constructor
    · intro h
      by_contra hs
      push_neg at hs
      have h1 : (0 : ℚ) ≤ s - 1 / 10 := by linarith
      rw [max_eq_left h1] at h
      rcases le_total (0 : ℚ) (s - 1 / 10 - 1 / 10) with h2 | h2
      · rw [max_eq_left h2] at h
        linarith
      · rw [max_eq_right h2] at h
        linarith
    · intro hs
      have h1 : s - 1 / 10 ≤ (0 : ℚ) := by linarith
      rw [max_eq_right h1, max_eq_right (by norm_num : (0 : ℚ) - 1 / 10 ≤ 0)]

/- ------------------------------------------------------------------
Claim theorems: winner selection and the job state machine (C1, C9, C5)
------------------------------------------------------------------- -/

theorem processDocument_noFaults_status (cfg : EvolutionConfig)
    (results : List EvaluationResult) (st : PersistedState) :
    (processDocument cfg results noFaults st).status = JobStatus.completed := by
  simp [processDocument, noFaults]

theorem processDocument_noFaults_winner (cfg : EvolutionConfig)
    (results : List EvaluationResult) (st : PersistedState) :
    (processDocument cfg results noFaults st).winnerCandidateId =
      (selectWinner cfg results).map (fun w => w.candidateId) := by
  simp [processDocument, noFaults]

/-- C1: for every evolution job (a fault-free `processDocument` run), a
selected winner is a candidate with the highest win rate and is returned
only when that win rate is at least `0.5 + minWinMargin` (default margin
`0.1`, i.e. a `0.6` threshold); when no candidate reaches the threshold
no winner is recorded and the job still reaches status `completed`, not
`failed`. -/
theorem selectWinner_threshold_and_completion (cfg : EvolutionConfig)
    (results : List EvaluationResult) (st : PersistedState) :
    ((processDocument cfg results noFaults st).status = JobStatus.completed)
  ∧ (∀ w, selectWinner cfg results = some w →
      w ∈ results ∧ (∀ r ∈ results, r.winRate ≤ w.winRate) ∧
      (1 : ℚ) / 2 + cfg.minWinMargin ≤ w.winRate ∧
      (processDocument cfg results noFaults st).winnerCandidateId = some w.candidateId)
  ∧ ((∀ r ∈ results, r.winRate < (1 : ℚ) / 2 + cfg.minWinMargin) →
      selectWinner cfg results = none ∧
      (processDocument cfg results noFaults st).winnerCandidateId = none)
  ∧ DEFAULT_EVOLUTION_CONFIG.minWinMargin = 1 / 10 := by
  refine ⟨processDocument_noFaults_status cfg results st, ?_, ?_, by
    norm_num [DEFAULT_EVOLUTION_CONFIG]⟩
  · intro w hw
    have h1 := selectWinner_eq_firstMax cfg results
    rw [hw] at h1
    cases hfm : firstMaxByWinRate results with
    | none =>
      rw [hfm] at h1
      simp only [] at h1
      exact absurd h1 (by simp)
    | some m =>
      rw [hfm] at h1
      simp only [] at h1
      by_cases hth : (1 : ℚ) / 2 + cfg.minWinMargin ≤ m.winRate
      · rw [if_pos hth] at h1
        simp only [Option.some.injEq] at h1
        subst h1
        refine ⟨firstMaxByWinRate_mem hfm, firstMaxByWinRate_isMax hfm, hth, ?_⟩
        rw [processDocument_noFaults_winner cfg results st, hw]
        rfl
      · rw [if_neg hth] at h1
        exact absurd h1 (by simp)
  · intro hlt
    have hnone : selectWinner cfg results = none := by
      rw [selectWinner_eq_firstMax]
      cases hfm : firstMaxByWinRate results with
      | none => rfl
      | some m =>
        simp only []
        rw [if_neg (not_le.mpr (hlt m (firstMaxByWinRate_mem hfm)))]
    refine ⟨hnone, ?_⟩
    rw [processDocument_noFaults_winner cfg results st, hnone]
    rfl

/-- C1, witness: one candidate with win rate `0.8 ≥ 0.6`; it is a member
of the result list with the maximal win rate, the job completes, and the
winner is recorded. -/
theorem selectWinner_threshold_and_completion_witness :
    (⟨"c1", 4, 4 / 5, ⟨4, 4, 4⟩⟩ : EvaluationResult) ∈
        [(⟨"c1", 4, 4 / 5, ⟨4, 4, 4⟩⟩ : EvaluationResult)] ∧
    (1 : ℚ) / 2 + DEFAULT_EVOLUTION_CONFIG.minWinMargin ≤
        (⟨"c1", 4, 4 / 5, ⟨4, 4, 4⟩⟩ : EvaluationResult).winRate ∧
    (processDocument DEFAULT_EVOLUTION_CONFIG [⟨"c1", 4, 4 / 5, ⟨4, 4, 4⟩⟩]
        noFaults ⟨0, false, 0⟩).status = JobStatus.completed ∧
    (processDocument DEFAULT_EVOLUTION_CONFIG [⟨"c1", 4, 4 / 5, ⟨4, 4, 4⟩⟩]
        noFaults ⟨0, false, 0⟩).winnerCandidateId = some "c1" := by
  have hw : selectWinner DEFAULT_EVOLUTION_CONFIG [⟨"c1", 4, 4 / 5, ⟨4, 4, 4⟩⟩] =
      some ⟨"c1", 4, 4 / 5, ⟨4, 4, 4⟩⟩ := by
    rw [selectWinner]
    norm_num [List.insertionSort, List.orderedInsert, DEFAULT_EVOLUTION_CONFIG]
  obtain ⟨h1, h2, h3, h4⟩ :=
    selectWinner_threshold_and_completion DEFAULT_EVOLUTION_CONFIG
      [⟨"c1", 4, 4 / 5, ⟨4, 4, 4⟩⟩] ⟨0, false, 0⟩
  obtain ⟨hm, hmax, hth, hid⟩ := h2 _ hw
  exact ⟨hm, hth, h1, hid⟩

/-- C9, counterexample: two candidates share the maximal win rate `0.8`
(both above the `0.6` default threshold) with mean scores `2` and `5`;
`selectWinner` returns the first-listed candidate, whose mean score is
the LOWER one, so selection does not tie-break on mean score. -/
theorem tie_break_mean_score_cex :
    selectWinner DEFAULT_EVOLUTION_CONFIG
        [⟨"low", 2, 4 / 5, ⟨2, 2, 2⟩⟩, ⟨"high", 5, 4 / 5, ⟨5, 5, 5⟩⟩] =
      some ⟨"low", 2, 4 / 5, ⟨2, 2, 2⟩⟩ ∧
    (⟨"low", 2, 4 / 5, ⟨2, 2, 2⟩⟩ : EvaluationResult).winRate =
      (⟨"high", 5, 4 / 5, ⟨5, 5, 5⟩⟩ : EvaluationResult).winRate ∧
    (⟨"low", 2, 4 / 5, ⟨2, 2, 2⟩⟩ : EvaluationResult).score <
      (⟨"high", 5, 4 / 5, ⟨5, 5, 5⟩⟩ : EvaluationResult).score ∧
    (1 : ℚ) / 2 + DEFAULT_EVOLUTION_CONFIG.minWinMargin ≤
      (⟨"high", 5, 4 / 5, ⟨5, 5, 5⟩⟩ : EvaluationResult).winRate := by
  refine ⟨?_, rfl, by norm_num, by norm_num [DEFAULT_EVOLUTION_CONFIG]⟩
  rw [selectWinner]
  norm_num [List.insertionSort, List.orderedInsert, winRateGe, DEFAULT_EVOLUTION_CONFIG]

/-- C9, amended: a returned winner attains the maximal win rate among
all evaluation results and is the EARLIEST such candidate in the result
list (the stable sort keeps input order among equal win rates); the mean
score is not consulted. -/
theorem selection_first_max_win_rate (cfg : EvolutionConfig)
    (results : List EvaluationResult) (w : EvaluationResult)
    (hw : selectWinner cfg results = some w) :
    (∀ r ∈ results, r.winRate ≤ w.winRate) ∧
    ∃ l₁ l₂, results = l₁ ++ w :: l₂ ∧ ∀ r ∈ l₁, r.winRate < w.winRate := by
  have h1 := selectWinner_eq_firstMax cfg results
  rw [hw] at h1
  cases hfm : firstMaxByWinRate results with
  | none =>
    rw [hfm] at h1
    simp only [] at h1
    exact absurd h1 (by simp)
  | some m =>
    rw [hfm] at h1
    simp only [] at h1
    by_cases hth : (1 : ℚ) / 2 + cfg.minWinMargin ≤ m.winRate
    · rw [if_pos hth] at h1
      simp only [Option.some.injEq] at h1
      subst h1
      exact ⟨firstMaxByWinRate_isMax hfm, firstMaxByWinRate_earliest hfm⟩
    · rw [if_neg hth] at h1
      exact absurd h1 (by simp)

/-- C9, witness: applying the amended selection property at a concrete
two-candidate list whose selected winner is the first-listed maximal
candidate. -/
theorem selection_first_max_win_rate_witness :
    (∀ r ∈ [(⟨"low", 2, 4 / 5, ⟨2, 2, 2⟩⟩ : EvaluationResult),
            ⟨"high", 5, 4 / 5, ⟨5, 5, 5⟩⟩],
        r.winRate ≤ (⟨"low", 2, 4 / 5, ⟨2, 2, 2⟩⟩ : EvaluationResult).winRate) ∧
    ∃ l₁ l₂,
      [(⟨"low", 2, 4 / 5, ⟨2, 2, 2⟩⟩ : EvaluationResult), ⟨"high", 5, 4 / 5, ⟨5, 5, 5⟩⟩] =
        l₁ ++ ⟨"low", 2, 4 / 5, ⟨2, 2, 2⟩⟩ :: l₂ ∧
      ∀ r ∈ l₁, r.winRate < (⟨"low", 2, 4 / 5, ⟨2, 2, 2⟩⟩ : EvaluationResult).winRate :=
  selection_first_max_win_rate DEFAULT_EVOLUTION_CONFIG _ _ (by
    rw [selectWinner]
    norm_num [List.insertionSort, List.orderedInsert, winRateGe, DEFAULT_EVOLUTION_CONFIG])

/-- C5, counterexample: with `autoUpdate` on, a winning candidate, and
the history insertion throwing, the job ends with status `failed` while
the document's `generation` counter was already incremented from `0` to
`1` — a failed job does not leave the document state untouched, and the
generation update preceded the history record. -/
theorem failed_job_partial_write_cex :
    (processDocument { DEFAULT_EVOLUTION_CONFIG with autoUpdate := true }
        [⟨"c1", 4, 4 / 5, ⟨4, 4, 4⟩⟩] failHistoryOnly ⟨0, false, 0⟩).status = JobStatus.failed ∧
    (processDocument { DEFAULT_EVOLUTION_CONFIG with autoUpdate := true }
        [⟨"c1", 4, 4 / 5, ⟨4, 4, 4⟩⟩] failHistoryOnly ⟨0, false, 0⟩).state.generation = 1 ∧
    (⟨0, false, 0⟩ : PersistedState).generation = 0 := by
  have hw : selectWinner { DEFAULT_EVOLUTION_CONFIG with autoUpdate := true }
      [⟨"c1", 4, 4 / 5, ⟨4, 4, 4⟩⟩] = some ⟨"c1", 4, 4 / 5, ⟨4, 4, 4⟩⟩ := by
    rw [selectWinner]
    norm_num [List.insertionSort, List.orderedInsert, DEFAULT_EVOLUTION_CONFIG]
  refine ⟨?_, ?_, rfl⟩ <;>
    simp [processDocument, failHistoryOnly, hw]

/-- C5, amended: the document's `generation` counter is incremented only
when a winner was selected and `autoUpdate` is enabled, and then by
exactly one; a job that fails before the document-update step leaves the
generation unchanged; but on the success path the generation update is
performed BEFORE the history record is written, so a failure in the
feedback-marking or history step yields a failed job whose generation
increment has already been persisted. -/
theorem document_update_ordering (cfg : EvolutionConfig)
    (results : List EvaluationResult) (faults : WorkflowStep → Bool)
    (st : PersistedState) :
    ((WorkflowStep.updateDocument ∉ (processDocument cfg results faults st).trace) →
        (processDocument cfg results faults st).state.generation = st.generation)
  ∧ ((WorkflowStep.updateDocument ∈ (processDocument cfg results faults st).trace) →
        (selectWinner cfg results).isSome = true ∧ cfg.autoUpdate = true ∧
        (processDocument cfg results faults st).state.generation = st.generation + 1)
  ∧ ((selectWinner cfg results).isSome = true → cfg.autoUpdate = true →
        (processDocument cfg results noFaults st).trace =
          [WorkflowStep.generateMutations, WorkflowStep.prepareSampleQuestions,
           WorkflowStep.evaluateCandidates, WorkflowStep.updateDocument,
           WorkflowStep.markFeedbacksProcessed, WorkflowStep.recordEvolutionHistory]) := by
  refine ⟨?_, ?_, ?_⟩
  · by_cases h1 : faults .generateMutations = true
    · simp [processDocument, h1]
    · by_cases h2 : faults .prepareSampleQuestions = true
      · simp [processDocument, h1, h2]
      · by_cases h3 : faults .evaluateCandidates = true
        · simp [processDocument, h1, h2, h3]
        · by_cases hdu : ((selectWinner cfg results).isSome && cfg.autoUpdate) = true
          · by_cases h4 : faults .updateDocument = true
            · simp [processDocument, h1, h2, h3, hdu, h4]
            · by_cases h5 : faults .markFeedbacksProcessed = true
              · simp [processDocument, h1, h2, h3, hdu, h4, h5]
              · by_cases h6 : faults .recordEvolutionHistory = true
                · simp [processDocument, h1, h2, h3, hdu, h4, h5, h6]
                · simp [processDocument, h1, h2, h3, hdu, h4, h5, h6]
          · by_cases h5 : faults .markFeedbacksProcessed = true
            · simp [processDocument, h1, h2, h3, hdu, h5]
            · by_cases h6 : faults .recordEvolutionHistory = true
              · simp [processDocument, h1, h2, h3, hdu, h5, h6]
              · simp [processDocument, h1, h2, h3, hdu, h5, h6]
  · by_cases h1 : faults .generateMutations = true
    · simp [processDocument, h1]
    · by_cases h2 : faults .prepareSampleQuestions = true
      · simp [processDocument, h1, h2]
      · by_cases h3 : faults .evaluateCandidates = true
        · simp [processDocument, h1, h2, h3]
        · by_cases hdu : ((selectWinner cfg results).isSome && cfg.autoUpdate) = true
          · obtain ⟨hsome, hauto⟩ :
                (selectWinner cfg results).isSome = true ∧ cfg.autoUpdate = true := by
              simpa using hdu
            by_cases h4 : faults .updateDocument = true
            · simp [processDocument, h1, h2, h3, hdu, h4]
            · by_cases h5 : faults .markFeedbacksProcessed = true
              · simp [processDocument, h1, h2, h3, hdu, h4, h5, hsome, hauto]
              · by_cases h6 : faults .recordEvolutionHistory = true
                · simp [processDocument, h1, h2, h3, hdu, h4, h5, h6, hsome, hauto]
                · simp [processDocument, h1, h2, h3, hdu, h4, h5, h6, hsome, hauto]
          · by_cases h5 : faults .markFeedbacksProcessed = true
            · simp [processDocument, h1, h2, h3, hdu, h5]
            · by_cases h6 : faults .recordEvolutionHistory = true
              · simp [processDocument, h1, h2, h3, hdu, h5, h6]
              · simp [processDocument, h1, h2, h3, hdu, h5, h6]
  · intro hsome hauto
    simp [processDocument, noFaults, hsome, hauto]

/-- C5, witness: at a concrete failed-at-history job, the amended
theorem's second conjunct confirms that a winner was selected,
`autoUpdate` was on, and the generation was incremented by one. -/
theorem document_update_ordering_witness :
    (selectWinner { DEFAULT_EVOLUTION_CONFIG with autoUpdate := true }
        [⟨"c1", 4, 4 / 5, ⟨4, 4, 4⟩⟩]).isSome = true ∧
    ({ DEFAULT_EVOLUTION_CONFIG with autoUpdate := true } : EvolutionConfig).autoUpdate = true ∧
    (processDocument { DEFAULT_EVOLUTION_CONFIG with autoUpdate := true }
        [⟨"c1", 4, 4 / 5, ⟨4, 4, 4⟩⟩] failHistoryOnly
        ⟨0, false, 0⟩).state.generation = (⟨0, false, 0⟩ : PersistedState).generation + 1 := by
  have hw : selectWinner { DEFAULT_EVOLUTION_CONFIG with autoUpdate := true }
      [⟨"c1", 4, 4 / 5, ⟨4, 4, 4⟩⟩] = some ⟨"c1", 4, 4 / 5, ⟨4, 4, 4⟩⟩ := by
    rw [selectWinner]
    norm_num [List.insertionSort, List.orderedInsert, DEFAULT_EVOLUTION_CONFIG]
  exact (document_update_ordering { DEFAULT_EVOLUTION_CONFIG with autoUpdate := true }
      [⟨"c1", 4, 4 / 5, ⟨4, 4, 4⟩⟩] failHistoryOnly ⟨0, false, 0⟩).2.1
    (by simp [processDocument, failHistoryOnly, hw])

/- ------------------------------------------------------------------
Claim theorems: win-rate aggregation and judge defaults (C2, C6)
------------------------------------------------------------------- -/

theorem round2_bounds {x : ℚ} (h0 : 0 ≤ x) (h1 : x ≤ 1) :
    0 ≤ round2 x ∧ round2 x ≤ 1 := by
  have hround0 : (0 : ℤ) ≤ round (x * 100) := by
    rw [round_eq, Int.le_floor]
    push_cast
    linarith
  have hround1 : round (x * 100) ≤ 100 := by
    rw [round_eq]
    have hlt : (⌊x * 100 + 1 / 2⌋ : ℤ) < 101 := by
      rw [Int.floor_lt]
      push_cast
      linarith
    omega
  constructor
  · rw [round2]
    have hcast : (0 : ℚ) ≤ ((round (x * 100) : ℤ) : ℚ) := by exact_mod_cast hround0
    positivity
  · rw [round2]
    rw [div_le_one (by norm_num : (0 : ℚ) < 100)]
    exact_mod_cast hround1

theorem docWins_cons (c : PairwiseComparison) (cs : List PairwiseComparison) :
    docWins (c :: cs) = docWins cs + if c.winner = PairwiseWinner.B then 1 else 0 := by
  rw [docWins, docWins, List.countP_cons]
  by_cases h : c.winner = PairwiseWinner.B <;> simp [h]

theorem docLosses_cons (c : PairwiseComparison) (cs : List PairwiseComparison) :
    docLosses (c :: cs) = docLosses cs + if c.winner = PairwiseWinner.A then 1 else 0 := by
  rw [docLosses, docLosses, List.countP_cons]
  by_cases h : c.winner = PairwiseWinner.A <;> simp [h]

theorem docTies_cons (c : PairwiseComparison) (cs : List PairwiseComparison) :
    docTies (c :: cs) = docTies cs +
      if c.winner ≠ PairwiseWinner.B ∧ c.winner ≠ PairwiseWinner.A then 1 else 0 := by
  rw [docTies, docTies, List.countP_cons]
  by_cases h : c.winner ≠ PairwiseWinner.B ∧ c.winner ≠ PairwiseWinner.A <;> simp [h]

theorem countTie_cons (c : PairwiseComparison) (cs : List PairwiseComparison) :
    countTie (c :: cs) = countTie cs + if c.winner = PairwiseWinner.TIE then 1 else 0 := by
  rw [countTie, countTie, List.countP_cons]
  by_cases h : c.winner = PairwiseWinner.TIE <;> simp [h]

theorem doc_counts_partition (comps : List PairwiseComparison) :
    docWins comps + docLosses comps + docTies comps = comps.length := by
  induction comps with
  | nil => rfl
  | cons c cs ih =>
    rw [docWins_cons, docLosses_cons, docTies_cons, List.length_cons]
    cases h : c.winner <;> simp <;> omega

theorem docWins_add_countTie_le_length (l : List PairwiseComparison) :
    docWins l + countTie l ≤ l.length := by
  induction l with
  | nil => simp [docWins, countTie]
  | cons c cs ih =>
    rw [docWins_cons, countTie_cons, List.length_cons]
    cases h : c.winner <;> simp <;> omega

theorem interpWinContribution_sum (l : List PairwiseComparison) :
    (l.map (fun c => interpWinContribution c.winner)).sum =
      (docWins l : ℚ) + (countTie l : ℚ) / 2 := by
  induction l with
  | nil => simp [docWins, countTie]
  | cons c cs ih =>
    rw [List.map_cons, List.sum_cons, ih, docWins_cons, countTie_cons]
    cases h : c.winner <;> simp [interpWinContribution] <;> push_cast <;> ring

theorem interpEvaluateCandidate_winRate (ocomps : List (Option PairwiseComparison)) :
    (interpEvaluateCandidate ocomps).winRate =
      (if 0 < (ocomps.filterMap id).length then
        ((docWins (ocomps.filterMap id) : ℚ) + (countTie (ocomps.filterMap id) : ℚ) / 2) /
          ((ocomps.filterMap id).length : ℚ)
      else 0) := by
  show (if 0 < (ocomps.filterMap id).length then
      ((ocomps.filterMap id).map (fun c => interpWinContribution c.winner)).sum /
        ((ocomps.filterMap id).length : ℚ) else 0) = _
  rw [interpWinContribution_sum]

/-- C2, counterexample: in the interpretation-rule pairwise path
(`InterpretationEvaluationEngine.evaluateCandidate`) a judged TIE
contributes `0.5` to the win-rate numerator: a single tied comparison
yields win rate `1/2`, while the claimed formula — ties counted in the
denominator but contributing nothing to the numerator — yields `0`. -/
theorem interp_win_rate_tie_cex :
    (interpEvaluateCandidate
        [some ⟨PairwiseWinner.TIE, ⟨3, 3, 3⟩, ⟨3, 3, 3⟩⟩]).winRate = 1 / 2 ∧
    docWins [(⟨PairwiseWinner.TIE, ⟨3, 3, 3⟩, ⟨3, 3, 3⟩⟩ : PairwiseComparison)] = 0 ∧
    docLosses [(⟨PairwiseWinner.TIE, ⟨3, 3, 3⟩, ⟨3, 3, 3⟩⟩ : PairwiseComparison)] = 0 ∧
    docTies [(⟨PairwiseWinner.TIE, ⟨3, 3, 3⟩, ⟨3, 3, 3⟩⟩ : PairwiseComparison)] = 1 ∧
    specWinRate 0 0 1 = 0 ∧
    (interpEvaluateCandidate
        [some ⟨PairwiseWinner.TIE, ⟨3, 3, 3⟩, ⟨3, 3, 3⟩⟩]).winRate ≠ specWinRate 0 0 1 := by
  have hwincount : docWins [(⟨PairwiseWinner.TIE, ⟨3, 3, 3⟩, ⟨3, 3, 3⟩⟩ :
      PairwiseComparison)] = 0 := by decide
  have htiecount : countTie [(⟨PairwiseWinner.TIE, ⟨3, 3, 3⟩, ⟨3, 3, 3⟩⟩ :
      PairwiseComparison)] = 1 := by decide
  have h1 : (interpEvaluateCandidate
      [some ⟨PairwiseWinner.TIE, ⟨3, 3, 3⟩, ⟨3, 3, 3⟩⟩]).winRate = 1 / 2 := by
    rw [interpEvaluateCandidate_winRate]
    have hfm : ([some (⟨PairwiseWinner.TIE, ⟨3, 3, 3⟩, ⟨3, 3, 3⟩⟩ :
        PairwiseComparison)].filterMap id) =
        [(⟨PairwiseWinner.TIE, ⟨3, 3, 3⟩, ⟨3, 3, 3⟩⟩ : PairwiseComparison)] := rfl
    rw [hfm, hwincount, htiecount]
    norm_num
  have h2 : specWinRate 0 0 1 = 0 := by norm_num [specWinRate]
  refine ⟨h1, by decide, by decide, by decide, h2, ?_⟩
  rw [h1, h2]
  norm_num

/-- C2, amended: in the document-candidate path the stored win rate is
`wins / (wins + losses + ties)` rounded to two decimals (`0` with no
comparisons), a tie counting only in the denominator; in the
interpretation-rule path a TIE additionally contributes `0.5` to the
numerator: `win_rate = (wins + 0.5·ties) / comparisons` over the parsed
comparisons.  In both paths every evaluation result's win rate lies in
`[0, 1]`. -/
theorem win_rate_formula_and_bounds (cid : String)
    (comps : List PairwiseComparison) (ocomps : List (Option PairwiseComparison)) :
    ((evaluateSingleCandidate cid comps).winRate =
        round2 (specWinRate (docWins comps) (docLosses comps) (docTies comps)))
  ∧ 0 ≤ (evaluateSingleCandidate cid comps).winRate
  ∧ (evaluateSingleCandidate cid comps).winRate ≤ 1
  ∧ ((interpEvaluateCandidate ocomps).winRate =
      (if 0 < (ocomps.filterMap id).length then
        ((docWins (ocomps.filterMap id) : ℚ) + (countTie (ocomps.filterMap id) : ℚ) / 2) /
          ((ocomps.filterMap id).length : ℚ)
      else 0))
  ∧ 0 ≤ (interpEvaluateCandidate ocomps).winRate
  ∧ (interpEvaluateCandidate ocomps).winRate ≤ 1 := by
  have hdoc : (evaluateSingleCandidate cid comps).winRate =
      round2 (if 0 < docWins comps + docLosses comps + docTies comps
        then (docWins comps : ℚ) / ((docWins comps + docLosses comps + docTies comps : ℕ) : ℚ)
        else 0) := rfl
  have hdoceq : (evaluateSingleCandidate cid comps).winRate =
      round2 (specWinRate (docWins comps) (docLosses comps) (docTies comps)) := by
    rw [hdoc, specWinRate]
    congr 1
    split_ifs with h
    · push_cast
      ring
    · rfl
  have hdocq : 0 ≤ (if 0 < docWins comps + docLosses comps + docTies comps
        then (docWins comps : ℚ) / ((docWins comps + docLosses comps + docTies comps : ℕ) : ℚ)
        else 0) ∧
      (if 0 < docWins comps + docLosses comps + docTies comps
        then (docWins comps : ℚ) / ((docWins comps + docLosses comps + docTies comps : ℕ) : ℚ)
        else 0) ≤ 1 := by
    split_ifs with h
    · have hpos : (0 : ℚ) < ((docWins comps + docLosses comps + docTies comps : ℕ) : ℚ) := by
        exact_mod_cast h
      constructor
      · positivity
      · rw [div_le_one hpos]
        exact_mod_cast (by omega :
          docWins comps ≤ docWins comps + docLosses comps + docTies comps)
    · norm_num
  have hdocb := round2_bounds hdocq.1 hdocq.2
  have hinterp := interpEvaluateCandidate_winRate ocomps
  have hinterpb : 0 ≤ (interpEvaluateCandidate ocomps).winRate ∧
      (interpEvaluateCandidate ocomps).winRate ≤ 1 := by
    rw [hinterp]
    split_ifs with h
    · have hpos : (0 : ℚ) < (((ocomps.filterMap id)).length : ℚ) := by exact_mod_cast h
      have hwt := docWins_add_countTie_le_length (ocomps.filterMap id)
      have hwtq : (docWins (ocomps.filterMap id) : ℚ) + (countTie (ocomps.filterMap id) : ℚ) ≤
          ((ocomps.filterMap id).length : ℚ) := by exact_mod_cast hwt
      have htq : (0 : ℚ) ≤ (countTie (ocomps.filterMap id) : ℚ) := by positivity
      constructor
      · positivity
      · rw [div_le_one hpos]
        linarith
    · norm_num
  refine ⟨hdoceq, ?_, ?_, hinterp, hinterpb.1, hinterpb.2⟩
  · rw [hdoc]
    exact hdocb.1
  · rw [hdoc]
    exact hdocb.2

/-- C6, counterexample: in `GeminiClient.evaluateDocuments`, a verdict
that cannot be parsed defaults to winner `"A"` (the original document)
with scores `(3,3,3)` for `A` and `(2,2,2)` for `B` — not to a TIE with
neutral `(3,3,3)` scores for both sides. -/
theorem judge_parse_default_favors_original_cex :
    (evaluateDocuments none).winner = "A" ∧
    (evaluateDocuments none).winner ≠ "TIE" ∧
    (evaluateDocuments none).scoresB = ⟨2, 2, 2⟩ ∧
    (evaluateDocuments none).scoresB ≠ (⟨3, 3, 3⟩ : GScores) := by
  refine ⟨rfl, by decide, rfl, ?_⟩
  intro h
  rw [show (evaluateDocuments none).scoresB = (⟨2, 2, 2⟩ : GScores) from rfl] at h
  have h23 : (2 : ℚ) = 3 := congrArg GScores.correctness h
  norm_num at h23

theorem docTies_map_runPairwiseComparison (raws : List (Option RawVerdict)) :
    docTies (raws.map runPairwiseComparison) =
      raws.countP (fun r => decide (r = none)) +
        (raws.filterMap id).countP
          (fun v => decide (parseWinner v.winner = PairwiseWinner.TIE)) := by
  induction raws with
  | nil => rfl
  | cons r rs ih =>
    cases r with
    | none =>
      rw [List.map_cons, docTies_cons, List.countP_cons,
        show List.filterMap id (none :: rs) = List.filterMap id rs from rfl, ih]
      simp [runPairwiseComparison] <;> omega
    | some v =>
      rw [List.map_cons, docTies_cons, List.countP_cons,
        show List.filterMap id (some v :: rs) = v :: List.filterMap id rs from rfl,
        List.countP_cons, ih]
      cases hpv : parseWinner v.winner <;> simp [runPairwiseComparison, hpv] <;> omega

/-- C6, amended: the evolution `evaluation-engine` pairwise path does
default an unparseable verdict to `TIE` with neutral `(3,3,3)` scores
for both sides and the candidate evaluation continues — every raw judge
output, parseable or not, contributes exactly one comparison, the
unparseable ones counted as ties; the `GeminiClient.evaluateDocuments`
path instead defaults to winner `"A"` with scores `(3,3,3)`/`(2,2,2)`. -/
theorem judge_parse_failure_defaults (raws : List (Option RawVerdict)) :
    runPairwiseComparison none =
      ⟨PairwiseWinner.TIE, ⟨3, 3, 3⟩, ⟨3, 3, 3⟩⟩
  ∧ docWins (raws.map runPairwiseComparison) + docLosses (raws.map runPairwiseComparison)
      + docTies (raws.map runPairwiseComparison) = raws.length
  ∧ docTies (raws.map runPairwiseComparison) =
      raws.countP (fun r => decide (r = none)) +
        (raws.filterMap id).countP
          (fun v => decide (parseWinner v.winner = PairwiseWinner.TIE))
  ∧ evaluateDocuments none =
      ⟨"A", ⟨3, 3, 3⟩, ⟨2, 2, 2⟩,
        "Evaluation parsing failed, defaulting to original document"⟩ := by
  refine ⟨rfl, ?_, docTies_map_runPairwiseComparison raws, rfl⟩
  rw [doc_counts_partition, List.length_map]

/- ------------------------------------------------------------------
Claim theorems: self-evolution (C7, C8, C10)
------------------------------------------------------------------- -/

theorem list_avg_bounds (l : List ℚ) (a b : ℚ) (hne : l ≠ [])
    (h : ∀ x ∈ l, a ≤ x ∧ x ≤ b) :
    a ≤ l.sum / l.length ∧ l.sum / l.length ≤ b := by
  have hlen : 0 < l.length := List.length_pos.mpr hne
  have hlenQ : (0 : ℚ) < (l.length : ℚ) := by exact_mod_cast hlen
  have hlow : (l.length : ℚ) * a ≤ l.sum := by
    have hs := List.card_nsmul_le_sum l a (fun x hx => (h x hx).1)
    rwa [nsmul_eq_mul] at hs
  have hhigh : l.sum ≤ (l.length : ℚ) * b := by
    have hs := List.sum_le_card_nsmul l b (fun x hx => (h x hx).2)
    rwa [nsmul_eq_mul] at hs
  constructor
  · rw [le_div_iff₀ hlenQ]
    linarith
  · rw [div_le_iff₀ hlenQ]
    linarith

theorem avgOfSEScores_bounds {s : SEScores} (h : SEScoresIn15 s) :
    1 ≤ avgOfSEScores s ∧ avgOfSEScores s ≤ 5 := by
  obtain ⟨⟨h1, h2⟩, ⟨h3, h4⟩, ⟨h5, h6⟩, ⟨h7, h8⟩⟩ := h
  constructor <;> (rw [avgOfSEScores]; linarith)

theorem calculateAverageScore_bounds {l : List SelfEvaluationResult} (hne : l ≠ [])
    (h : ∀ r ∈ l, SEScoresIn15 r.withRule) :
    1 ≤ calculateAverageScore l ∧ calculateAverageScore l ≤ 5 := by
  have hlen : l.length ≠ 0 := fun h0 => hne (List.length_eq_zero.mp h0)
  rw [calculateAverageScore, if_neg hlen]
  have hmap : (l.map (fun r => avgOfSEScores r.withRule)) ≠ [] := by
    simpa [List.map_eq_nil_iff] using hne
  have hb := list_avg_bounds (l.map (fun r => avgOfSEScores r.withRule)) 1 5 hmap (by
    intro x hx
    rw [List.mem_map] at hx
    obtain ⟨r, hr, hrx⟩ := hx
    rw [← hrx]
    exact avgOfSEScores_bounds (h r hr))
  rwa [List.length_map] at hb

theorem normalizeScore_bounds (v : JSValue) :
    1 ≤ normalizeScore v ∧ normalizeScore v ≤ 5 := by
  cases v with
  | num x =>
    constructor
    · exact le_max_left 1 (min 5 x)
    · rw [normalizeScore]
      exact max_le (by norm_num) (min_le_left 5 x)
  | other => norm_num [normalizeScore]

/-- C7: when both evaluation-result lists are nonempty and every
with-rule score block lies in `[1, 5]` (which the normalizing parser
guarantees for all judge output), a candidate rule is adopted exactly
when the relative improvement rate `(avg with − avg without) / (avg
without)` is at least the configured minimum improvement rate (default
`0.20`): the `Math.max(avgBefore, 1)` in the code's denominator
coincides with `avgBefore` because `avgBefore ≥ 1`. -/
theorem improvement_rate_adoption_gate (cfg : SelfEvolutionConfig)
    (resultsWithout resultsWith : List SelfEvaluationResult)
    (hb : resultsWithout ≠ []) (ha : resultsWith ≠ [])
    (hs : ∀ r ∈ resultsWithout, SEScoresIn15 r.withRule) :
    (adoptCandidate cfg resultsWithout resultsWith = true ↔
      cfg.minImprovementRate ≤
        (calculateAverageScore resultsWith - calculateAverageScore resultsWithout) /
          calculateAverageScore resultsWithout)
  ∧ DEFAULT_SELF_EVOLUTION_CONFIG.minImprovementRate = 1 / 5 := by
  have h1 : 1 ≤ calculateAverageScore resultsWithout :=
    (calculateAverageScore_bounds hb hs).1
  have hmax : max (calculateAverageScore resultsWithout) 1 =
      calculateAverageScore resultsWithout := max_eq_left h1
  constructor
  · rw [adoptCandidate, decide_eq_true_eq, calculateImprovementRate,
      if_neg (by simp [List.length_eq_zero, hb, ha]), hmax]
  · norm_num [DEFAULT_SELF_EVOLUTION_CONFIG]

/-- C7, witness: a one-question fixture whose without-candidate average
is `3` and with-candidate average is `4`; the adoption decision agrees
with the relative-improvement-rate formula of the claim. -/
theorem improvement_rate_adoption_gate_witness :
    (adoptCandidate DEFAULT_SELF_EVOLUTION_CONFIG
        [⟨⟨3, 3, 3, 3⟩, ⟨3, 3, 3, 3⟩⟩] [⟨⟨3, 3, 3, 3⟩, ⟨4, 4, 4, 4⟩⟩] = true ↔
      DEFAULT_SELF_EVOLUTION_CONFIG.minImprovementRate ≤
        (calculateAverageScore [⟨⟨3, 3, 3, 3⟩, ⟨4, 4, 4, 4⟩⟩] -
            calculateAverageScore [⟨⟨3, 3, 3, 3⟩, ⟨3, 3, 3, 3⟩⟩]) /
          calculateAverageScore [⟨⟨3, 3, 3, 3⟩, ⟨3, 3, 3, 3⟩⟩]) ∧
    DEFAULT_SELF_EVOLUTION_CONFIG.minImprovementRate = 1 / 5 :=
  improvement_rate_adoption_gate DEFAULT_SELF_EVOLUTION_CONFIG
    [⟨⟨3, 3, 3, 3⟩, ⟨3, 3, 3, 3⟩⟩] [⟨⟨3, 3, 3, 3⟩, ⟨4, 4, 4, 4⟩⟩]
    (by simp) (by simp)
    (by
      intro r hr
      rw [List.mem_singleton] at hr
      subst hr
      norm_num [SEScoresIn15])

/-- C8, counterexample: a question whose without-rule and with-rule
averages are both `4.0`: the claim's condition holds — the improvement
`0` is smaller than the default delta `0.5` — yet `identifyWeaknesses`
does not classify the question as a weakness, because the second branch
additionally requires the with-rule average to be below `3.5`. -/
theorem weakness_condition_cex :
    (avgOfSEScores (⟨⟨4, 4, 4, 4⟩, ⟨4, 4, 4, 4⟩⟩ : SelfEvaluationResult).withoutRule < 7 / 2 ∨
      avgOfSEScores (⟨⟨4, 4, 4, 4⟩, ⟨4, 4, 4, 4⟩⟩ : SelfEvaluationResult).withRule -
          avgOfSEScores (⟨⟨4, 4, 4, 4⟩, ⟨4, 4, 4, 4⟩⟩ : SelfEvaluationResult).withoutRule <
        DEFAULT_SELF_EVOLUTION_CONFIG.weaknessThreshold) ∧
    weaknessFlag DEFAULT_SELF_EVOLUTION_CONFIG ⟨⟨4, 4, 4, 4⟩, ⟨4, 4, 4, 4⟩⟩ = false := by
  constructor
  · right
    norm_num [avgOfSEScores, DEFAULT_SELF_EVOLUTION_CONFIG]
  · rw [weaknessFlag]
    simp only [Bool.or_eq_false_iff, Bool.and_eq_false_iff, decide_eq_false_iff_not]
    norm_num [avgOfSEScores, DEFAULT_SELF_EVOLUTION_CONFIG]

/-- C8, amended: a question is classified a weakness exactly when its
without-rule average metric score is below `3.5`, or when its with-rule
average is ALSO below `3.5` and the improvement (with-rule average minus
without-rule average) is smaller than the configured delta (default
`0.5`); a question already answered well with rules applied (with-rule
average at least `3.5`) is never flagged by the second branch. -/
theorem weakness_condition_characterization (cfg : SelfEvolutionConfig)
    (r : SelfEvaluationResult) :
    (weaknessFlag cfg r = true ↔
      avgOfSEScores r.withoutRule < 7 / 2 ∨
        (avgOfSEScores r.withRule < 7 / 2 ∧
          avgOfSEScores r.withRule - avgOfSEScores r.withoutRule < cfg.weaknessThreshold))
  ∧ DEFAULT_SELF_EVOLUTION_CONFIG.weaknessThreshold = 1 / 2 := by
  constructor
  · simp [weaknessFlag]
  · norm_num [DEFAULT_SELF_EVOLUTION_CONFIG]

/-- C10: every score block produced by the self-evaluation response
parser lies in `[1, 5]` — a numeric score is clamped into `[1, 5]` and a
missing or non-numeric score becomes `3` — and hence every four-metric
average, every iteration-aggregated score block, and every with-rule
average used in weakness detection and improvement-rate computation lies
in `[1, 5]` (in particular it is at least 1). -/
theorem normalize_score_bounds (raw : Option RawSEScores)
    (l : List SelfEvaluationResult) (blocks : List SEScores) :
    SEScoresIn15 (normalizeScores raw)
  ∧ (1 ≤ avgOfSEScores (normalizeScores raw) ∧ avgOfSEScores (normalizeScores raw) ≤ 5)
  ∧ (l ≠ [] → (∀ r ∈ l, SEScoresIn15 r.withRule) →
      1 ≤ calculateAverageScore l ∧ calculateAverageScore l ≤ 5)
  ∧ (blocks ≠ [] → (∀ s ∈ blocks, SEScoresIn15 s) →
      SEScoresIn15 (aggregateScores blocks)) := by
  have hnorm : SEScoresIn15 (normalizeScores raw) := by
    cases raw with
    | none => norm_num [normalizeScores, SEScoresIn15]
    | some s =>
      exact ⟨normalizeScore_bounds s.accuracy, normalizeScore_bounds s.completeness,
        normalizeScore_bounds s.clarity, normalizeScore_bounds s.relevance⟩
  refine ⟨hnorm, avgOfSEScores_bounds hnorm,
    fun hne h => calculateAverageScore_bounds hne h, fun hne h => ?_⟩
  have hblen : blocks.length ≠ 0 := fun h0 => hne (List.length_eq_zero.mp h0)
  have field_bound : ∀ (f : SEScores → ℚ), (∀ s, SEScoresIn15 s → 1 ≤ f s ∧ f s ≤ 5) →
      1 ≤ (blocks.map f).sum / (blocks.length : ℚ) ∧
        (blocks.map f).sum / (blocks.length : ℚ) ≤ 5 := by
    intro f hf
    have hmap : blocks.map f ≠ [] := by simpa [List.map_eq_nil_iff] using hne
    have hb := list_avg_bounds (blocks.map f) 1 5 hmap (by
      intro x hx
      rw [List.mem_map] at hx
      obtain ⟨s, hsmem, hsx⟩ := hx
      rw [← hsx]
      exact hf s (h s hsmem))
    rwa [List.length_map] at hb
  exact ⟨field_bound (fun s => s.accuracy) (fun s hs => hs.1),
    field_bound (fun s => s.completeness) (fun s hs => hs.2.1),
    field_bound (fun s => s.clarity) (fun s hs => hs.2.2.1),
    field_bound (fun s => s.relevance) (fun s hs => hs.2.2.2)⟩

/-- C10, witness: a raw block exercising all three normalization cases
(`7` clamps to `5`, `0` clamps to `1`, a non-number becomes `3`, `-3`
clamps to `1`), a one-element result list, and a one-element block list,
each within `[1, 5]`. -/
theorem normalize_score_bounds_witness :
    SEScoresIn15 (normalizeScores
      (some ⟨JSValue.num 7, JSValue.num 0, JSValue.other, JSValue.num (-3)⟩)) ∧
    (1 ≤ calculateAverageScore [⟨⟨3, 3, 3, 3⟩, ⟨2, 2, 2, 2⟩⟩] ∧
      calculateAverageScore [⟨⟨3, 3, 3, 3⟩, ⟨2, 2, 2, 2⟩⟩] ≤ 5) ∧
    SEScoresIn15 (aggregateScores [⟨1, 5, 2, 4⟩]) := by
  have h := normalize_score_bounds
    (some ⟨JSValue.num 7, JSValue.num 0, JSValue.other, JSValue.num (-3)⟩)
    [⟨⟨3, 3, 3, 3⟩, ⟨2, 2, 2, 2⟩⟩] [⟨1, 5, 2, 4⟩]
  refine ⟨h.1, h.2.2.1 (by simp) ?_, h.2.2.2 (by simp) ?_⟩
  · intro r hr
    rw [List.mem_singleton] at hr
    subst hr
    norm_num [SEScoresIn15]
  · intro s hs
    rw [List.mem_singleton] at hs
    subst hs
    norm_num [SEScoresIn15]

end GAVertexQA
